import Mathlib

/-!
Verification development for the node-service-generator CRUD scaffolding layer.

Each definition is a shallow embedding of a function of the repository
(`src/common/...`), translated statement by statement from the TypeScript
source.  Storage-engine behaviour (Sequelize) is modelled only as far as the
embedded functions observe it; where a Sequelize primitive has documented
semantics that the code relies on (for example `Model#update` mutating the
instance in place, or `findAndCountAll` returning a scalar count when no
`group` option is passed) that semantics is stated in the doc comment of the
embedding.  Interpolated parameters inside error message strings are elided;
the error identity used by the theorems is the (code, error, message) triple
of the `ClientError` / `ServerError` configuration tables.
-/

namespace NodeServiceGenerator

/-- Static description of one error of the `ClientError` / `ServerError`
configuration tables (`code`, `error` name, `message`). -/
structure ErrDesc where
  code : Nat
  error : String
  message : String
  deriving Repr, DecidableEq

/-- JS `Error` values as the generator sees them: either an `ApplicationError`
(classified application-level error carrying an HTTP-ish code, an error name,
a message and an optional wrapped internal error) or an unclassified raw
error coming from below.  Mirrors
`src/common/errors/application-error.class.ts`.  Because the
`ApplicationError` constructor returns an already-classified internal error
unchanged instead of wrapping it, a stored `internalError` is always an
unclassified error; it is therefore carried here as that error's message. -/
inductive JsError where
  | application (code : Nat) (error : String) (message : String)
      (internalError : Option String)
  | raw (message : String)
  deriving Repr, DecidableEq

/-- Whether an error is an already-classified `ApplicationError`. -/
def JsError.isApplication : JsError → Bool
  | .application _ _ _ _ => true
  | .raw _ => false

/-- The `ApplicationError` constructor
(`src/common/errors/application-error.class.ts`): when the internal error
passed to it is itself an `ApplicationError`, that error is returned
unchanged instead of being wrapped ("ApplicationError should not be wrapped
inside another error"). -/
def mkApplicationError (description : ErrDesc) (internalError : Option JsError) : JsError :=
  match internalError with
  | some (.application c e m i) => .application c e m i
  | some (.raw msg) =>
    .application description.code description.error description.message (some msg)
  | none => .application description.code description.error description.message none

/-- `ClientError.CRUD.BAD_REQUEST.UNABLE_TO_LIST`. -/
def UNABLE_TO_LIST : ErrDesc :=
  { code := 400, error := "Bad Request", message := "Items could not be listed." }

/-- `ClientError.CRUD.BAD_REQUEST.UNABLE_TO_GET`. -/
def UNABLE_TO_GET : ErrDesc :=
  { code := 400, error := "Bad Request", message := "Item could not be retrieved." }

/-- `ClientError.CRUD.BAD_REQUEST.UNABLE_TO_CREATE`. -/
def UNABLE_TO_CREATE : ErrDesc :=
  { code := 400, error := "Bad Request", message := "Item could not be created." }

/-- `ClientError.CRUD.BAD_REQUEST.UNABLE_TO_UPDATE`. -/
def UNABLE_TO_UPDATE : ErrDesc :=
  { code := 400, error := "Bad Request", message := "Item could not be updated." }

/-- `ClientError.CRUD.BAD_REQUEST.UNABLE_TO_DELETE`. -/
def UNABLE_TO_DELETE : ErrDesc :=
  { code := 400, error := "Bad Request", message := "Item could not be deleted." }

/-- `ClientError.CRUD.NOT_FOUND.ITEM_NOT_FOUND`. -/
def ITEM_NOT_FOUND : ErrDesc :=
  { code := 404, error := "Not found",
    message := "The item does not exist or you do not have access." }

/-- `ClientError.AUTH.FORBIDDEN.NO_PERMISSIONS`. -/
def NO_PERMISSIONS : ErrDesc :=
  { code := 403, error := "No permissions",
    message := "You do not have enough permissions to perform this request." }

/-- `ClientError.AUTH.FORBIDDEN.NO_ACCESS` (message interpolates the offending
key and value in the source). -/
def NO_ACCESS : ErrDesc :=
  { code := 403, error := "No permissions",
    message := "You do not have access to the given key and value." }

/-- `ClientError.CRUD.BAD_REQUEST.VALIDATION_MAXIMUM_PAGE_SIZE` (message
interpolates the page sizes in the source). -/
def VALIDATION_MAXIMUM_PAGE_SIZE : ErrDesc :=
  { code := 400, error := "Validation Error",
    message := "The selected page size exceeds the maximum page size." }

/-- `ClientError.CRUD.BAD_REQUEST.INVALID_FILTER_OPERATOR` (message
interpolates the operator in the source). -/
def INVALID_FILTER_OPERATOR : ErrDesc :=
  { code := 400, error := "Bad Request", message := "Provided filter operator is invalid." }

/-- `ClientError.CRUD.BAD_REQUEST.INVALID_FILTER_PARAMETER`. -/
def INVALID_FILTER_PARAMETER : ErrDesc :=
  { code := 400, error := "Bad Request",
    message := "Provided value for filter parameter is invalid." }

/-- `ClientError.CRUD.BAD_REQUEST.INVALID_IS_OPERATOR`. -/
def INVALID_IS_OPERATOR : ErrDesc :=
  { code := 400, error := "Bad Request",
    message := "Provided filter operator is can only have null value." }

/-- `ClientError.CRUD.BAD_REQUEST.INVALID_UPDATED_SINCE_FIELD` (message
interpolates the field in the source). -/
def INVALID_UPDATED_SINCE_FIELD : ErrDesc :=
  { code := 400, error := "Bad Request",
    message := "The asked entity or its relations do not contain any timestamp fields." }

/-- `ClientError.CRUD.BAD_REQUEST.INVALID_FORMAT_DATE_TIME` (message
interpolates the field in the source). -/
def INVALID_FORMAT_DATE_TIME : ErrDesc :=
  { code := 400, error := "Bad Request",
    message := "Provided property should be in ISO format." }

/-- `ServerError.CRUD.INTERNAL_SERVER_ERROR.INVALID_PERMISSION_DEFINITION`. -/
def INVALID_PERMISSION_DEFINITION : ErrDesc :=
  { code := 500, error := "Internal Server Error",
    message := "The service could not process this request." }

/-- The inline 500 error thrown by `upsertEntity` when the entity to update
cannot be found (message interpolates the missing id in the source). -/
def UNABLE_TO_FIND_ENTITY_TO_UPDATE : ErrDesc :=
  { code := 500, error := "Internal Server Error",
    message := "Unable to find entity to update." }

/-! ### Pagination (`Config`, `context-utils.ts`, `ContextRequest`, `getList` head) -/

/-- `Config.DEFAULT_PAGE_SIZE` from `src/common/config/config.ts`. -/
def DEFAULT_PAGE_SIZE : Int := 25

/-- `Config.DEFAULT_MAXIMUM_PAGE_SIZE` from `src/common/config/config.ts`. -/
def DEFAULT_MAXIMUM_PAGE_SIZE : Int := 100

/-- `getAndValidatePageSize` from `src/common/context/utils/context-utils.ts`:
a missing page size defaults to `DEFAULT_PAGE_SIZE`; a non-numeric maximum
defaults to the environment override or `DEFAULT_MAXIMUM_PAGE_SIZE` (the
environment branch is modelled by the `Option.getD` default); the only check
performed is `pageSize > maximumPageSize`. -/
def getAndValidatePageSize (pageSize : Option Int) (maximumPageSize : Option Int) :
    Except JsError Int :=
  let ps := pageSize.getD DEFAULT_PAGE_SIZE
  let maxPs := maximumPageSize.getD DEFAULT_MAXIMUM_PAGE_SIZE
  if ps > maxPs then
    .error (mkApplicationError VALIDATION_MAXIMUM_PAGE_SIZE none)
  else
    .ok ps

/-- The query-string fields of `ContextRequest` that pagination reads.  Raw
query values are strings; they are modelled after numeric parsing.  A present
`page=0` is the nonempty (hence truthy) string "0" in JS, so `getNumber`
coerces it to the number 0 rather than falling back to the default. -/
structure ContextRequestQuery where
  page : Option Int := none
  page_size : Option Int := none
  deriving Repr, DecidableEq

/-- `ContextRequest.getPage`: `getNumber("page", 1)`. -/
def getPage (q : ContextRequestQuery) : Int :=
  q.page.getD 1

/-- `ContextRequest.getPageSize`: `getAndValidatePageSize(getNumber("page_size"),
this.maximumPageSize)`; the instance maximum is always a number, set in the
constructor. -/
def getPageSize (q : ContextRequestQuery) (maximumPageSize : Int) : Except JsError Int :=
  getAndValidatePageSize q.page_size (some maximumPageSize)

/-- The pagination head of `SequelizeRepository.getList`
(`repository.ts` lines 87-89):
`page = request.getPage(); limit = Math.abs(request.getPageSize());
offset = limit * (page - 1)`.  Returns the `(limit, offset)` pair handed to
phase 1. -/
def getListPagination (q : ContextRequestQuery) (maximumPageSize : Int) :
    Except JsError (Int × Int) := do
  let page := getPage q
  let pageSize ← getPageSize q maximumPageSize
  let limit : Int := |pageSize|
  let offset : Int := limit * (page - 1)
  return (limit, offset)

/-! ### Data provider error wrapping (`dataprovider.ts`) -/

/-- The five top-level operations of `SequelizeDataProvider`. -/
inductive ProviderOp where
  | list | get | create | update | delete
  deriving Repr, DecidableEq

/-- The operation-specific "unable to <verb>" error each provider operation
wraps internal failures into. -/
def opError : ProviderOp → ErrDesc
  | .list => UNABLE_TO_LIST
  | .get => UNABLE_TO_GET
  | .create => UNABLE_TO_CREATE
  | .update => UNABLE_TO_UPDATE
  | .delete => UNABLE_TO_DELETE

/-- The common control-flow shape of the five `SequelizeDataProvider`
operations: the permission validation runs before the `try` block (its
outcome propagates as is), then the body runs inside
`try ... catch (err) { throw new ApplicationError(<unable to verb>, err) }`. -/
def runProviderOp {α : Type} (op : ProviderOp) (permissionCheck : Except JsError Unit)
    (body : Except JsError α) : Except JsError α :=
  match permissionCheck with
  | .error e => .error e
  | .ok _ =>
    match body with
    | .ok v => .ok v
    | .error e => .error (mkApplicationError (opError op) (some e))

/-! ### `deleteItem` (`repository.ts` lines 200-229) and the info side-row -/

/-- `EntityStatus` from `src/common/models/status.model.ts`. -/
inductive EntityStatus where
  | REGULAR | ARCHIVED | DELETED
  deriving Repr, DecidableEq

/-- The slice of a fetched model instance that `deleteItem` inspects: primary
key, the `status_id` attribute (`none` when the model carries no status
column) and the `info_id` audit-record foreign key (`none` when the model
carries none).  The JS `"status_id" in item` / `"info_id" in item` property
checks are modelled by `Option.isSome` of these fields. -/
structure Item where
  id : Int
  status_id : Option EntityStatus := none
  info_id : Option Int := none
  deriving Repr, DecidableEq

/-- The row `upsertInfo` writes: `<action>_at = NOW()`, plus `<action>_by_id`
when the auth metadata carries `internal.id`, plus the target `id` when
updating an existing info row.  The NOW() timestamp is implicit in the
`action` field. -/
structure InfoPayload where
  action : String
  by_id : Option Int
  id : Option Int
  deriving Repr, DecidableEq

/-- `SequelizeRepository.upsertInfo`: builds the payload written to the
`Info` model from the auth metadata `internal.id` (omitted when absent) and
the optional existing info row id. -/
def upsertInfo (metadataInternalId : Option Int) (action : String) (id : Option Int) :
    InfoPayload :=
  { action := action, by_id := metadataInternalId, id := id }

/-- Everything observable about one `deleteItem` call after its `getItem`
fetch returned `item`: the object the method returns, whether the row was
destroyed, and the info upsert it performed (if any). -/
structure DeleteOutcome where
  returnedItem : Item
  destroyed : Bool
  infoUpsert : Option InfoPayload
  deriving Repr, DecidableEq

/-- `SequelizeRepository.deleteItem` after its `getItem` fetch succeeded:
if the instance has a `status_id` attribute it calls
`item.update({ status_id: softDeleteStatus })` — Sequelize `Model#update` is
set-then-save, so it writes the new status into the very instance that the
method returns — otherwise it calls `item.destroy()`.  The info row is
updated (action "deleted") only when the instance has an `info_id` AND the
configured soft-delete status is `DELETED`. -/
def deleteItem (softDeleteStatus : EntityStatus) (metadataInternalId : Option Int)
    (item : Item) : DeleteOutcome :=
  let returnedItem :=
    match item.status_id with
    | some _ => { item with status_id := some softDeleteStatus }
    | none => item
  let destroyed := item.status_id.isNone
  let infoUpsert :=
    match item.info_id with
    | some infoId =>
      if softDeleteStatus = EntityStatus.DELETED then
        some (upsertInfo metadataInternalId "deleted" (some infoId))
      else
        none
    | none => none
  { returnedItem := returnedItem, destroyed := destroyed, infoUpsert := infoUpsert }

/-! ### Entity graph model and `AssociationBuilder` (`association-builder.ts`) -/

/-- A resolved path target: an ordinary dotted column path, or a raw
`Sequelize.literal` expression plugged in through an override map. -/
inductive PathVal where
  | str (path : String)
  | lit (expr : String)
  deriving Repr, DecidableEq

/-- The slice of a Sequelize data type the generators inspect: `generateFilter`
only checks whether the resolved attribute type is `DataTypes.BOOLEAN`. -/
inductive DataTy where
  | boolean
  | other (name : String)
  deriving Repr, DecidableEq

/-- One declared attribute as stored in `model.rawAttributes`: its physical
column name (`field`), its type, and its nullability (`allowNull`). -/
structure AttrDesc where
  field : String
  type : DataTy := .other ""
  allowNull : Bool := false
  deriving Repr, DecidableEq

/-- `Association.associationType` values (`src/common/generator/types/sequelize`). -/
inductive AssocTy where
  | BELONGS_TO | HAS_ONE | HAS_MANY | BELONGS_TO_MANY
  deriving Repr, DecidableEq

/-- One declared association as the generators read it.  `asName` is the
source's `as` alias (a Lean keyword); `through` names the join model of a
`BELONGS_TO_MANY` association. -/
structure AssocDesc where
  target : String
  asName : String
  foreignKey : String
  otherKey : String := ""
  through : String := ""
  associationType : AssocTy
  deriving Repr, DecidableEq

/-- A model (entity) as declared to Sequelize, as far as the generators read
it: name, primary key attribute, raw attributes and associations (association
name to descriptor). -/
structure MdlDesc where
  name : String
  primaryKeyAttribute : String
  rawAttributes : List (String × AttrDesc) := []
  associations : List (String × AssocDesc) := []
  deriving Repr, DecidableEq

/-- `model.rawAttributes[k]` lookup. -/
def MdlDesc.rawAttr (m : MdlDesc) (k : String) : Option AttrDesc :=
  (m.rawAttributes.lookup k)

/-- `model.associations[k]` lookup. -/
def MdlDesc.assoc (m : MdlDesc) (k : String) : Option AssocDesc :=
  (m.associations.lookup k)

/-- The configuration an `AssociationBuilder` (base class of the permissions
manager and filters generator) closes over: the model registry (in JS every
association's `target` is a live model class; here targets are resolved by
name through a total registry), the root `model`, the `pathMap` override map,
and the subclass-specific `associationError`. -/
structure AssociationBuilderCfg where
  registry : String → MdlDesc
  model : String
  pathMap : List (String × PathVal) := []
  associationError : ErrDesc

/-- The root model object. -/
def AssociationBuilderCfg.rootModel (cfg : AssociationBuilderCfg) : MdlDesc :=
  cfg.registry cfg.model

/-- Structural split of a character list at every character satisfying `p`
(JS `split` semantics: n separators yield n+1 pieces, empty pieces kept).
The result is always nonempty. -/
def splitCharsWhen (p : Char → Bool) : List Char → List (List Char)
  | [] => [[]]
  | c :: cs =>
    match splitCharsWhen p cs with
    | [] => [[]]
    | piece :: pieces =>
      if p c then [] :: piece :: pieces else (c :: piece) :: pieces

/-- JS `path.split(".")`. -/
def splitOnDot (s : String) : List String :=
  (splitCharsWhen (fun c => c == '.') s.toList).map String.mk

/-- JS `filter.split(/\s/)` (split at every single whitespace character). -/
def splitOnWhitespace (s : String) : List String :=
  (splitCharsWhen (fun c => c.isWhitespace) s.toList).map String.mk

/-- Strip leading whitespace. -/
def trimLeftChars (cs : List Char) : List Char :=
  cs.dropWhile (·.isWhitespace)

/-- Strip trailing whitespace. -/
def trimRightChars (cs : List Char) : List Char :=
  (cs.reverse.dropWhile (·.isWhitespace)).reverse

/-- Strip surrounding whitespace. -/
def trimChars (cs : List Char) : List Char :=
  trimRightChars (trimLeftChars cs)

/-- `getLastAssociationModel`: the target of the last association of the
chain, or the root model when the chain is empty — and also when the last
entry is `undefined` (a failed `model.associations[name]` lookup pushed by
`buildAssociations`), since JS `lastAssociation ? ... : this.model` treats
`undefined` as falsy. -/
def getLastAssociationModel (cfg : AssociationBuilderCfg)
    (associations : List (Option AssocDesc)) : MdlDesc :=
  match associations.getLast? with
  | some (some a) => cfg.registry a.target
  | some none => cfg.rootModel
  | none => cfg.rootModel

/-- `serializeColumnName`: nested column references use the Sequelize
`$column.path$` syntax; base-entity columns are returned as is. -/
def serializeColumnName (column : String) : String :=
  if column.toList.contains '.' then "$" ++ column ++ "$" else column

/-- `buildAssociations`: fold the association names, looking each up on the
target model of the chain built so far; failed lookups are kept as `none`
(JS pushes `undefined`). -/
def buildAssociations (cfg : AssociationBuilderCfg) (names : List String) :
    List (Option AssocDesc) :=
  names.foldl
    (fun associations name =>
      let mdl := getLastAssociationModel cfg associations
      associations ++ [mdl.assoc name])
    []

/-- `validateAssociations`: throws the subclass `associationError` when the
chain contains a failed lookup or the terminal field is not a raw attribute
of the last model. -/
def validateAssociations (cfg : AssociationBuilderCfg)
    (associations : List (Option AssocDesc)) (field : String) : Except JsError Unit :=
  let hasInvalidAssociations := associations.any (fun a => a.isNone)
  let mdl := getLastAssociationModel cfg associations
  let isFieldInvalid := (mdl.rawAttr field).isNone
  if hasInvalidAssociations || isFieldInvalid then
    .error (mkApplicationError cfg.associationError none)
  else
    .ok ()

/-- Result of `extractAndValidatePathData`. -/
structure PathData where
  field : PathVal
  associations : List (Option AssocDesc)
  deriving Repr, DecidableEq

/-- `extractAndValidatePathData`: apply the `pathMap` override first (a
literal override short-circuits with no associations); otherwise split on
`.`, pop the terminal field, build and validate the association chain. -/
def extractAndValidatePathData (cfg : AssociationBuilderCfg) (queryPath : String) :
    Except JsError PathData :=
  let path := ((cfg.pathMap.lookup queryPath).getD (.str queryPath))
  match path with
  | .lit expr => .ok { associations := [], field := .lit expr }
  | .str p =>
    let pathKeys := splitOnDot p
    let field := pathKeys.getLast?.getD ""
    let names := pathKeys.dropLast
    let associations := buildAssociations cfg names
    match validateAssociations cfg associations field with
    | .error e => .error e
    | .ok _ => .ok { associations := associations, field := .str field }

/-! ### Permissions manager read condition (`permissions-manager.ts`) -/

/-- A metadata value attached to the auth context: absent (`undefined`), a
scalar, or an array of scalars. -/
inductive MetaVal where
  | absent
  | scalar (v : Int)
  | arr (vs : List Int)
  deriving Repr, DecidableEq

/-- `Array.isArray(metadata[key]) ? metadata[key] : [metadata[key]]`: the
metadata value as the array used in the `IN` restriction.  An absent key
yields the one-element array containing `undefined` (modelled as `none`). -/
def MetaVal.toValueArray : MetaVal → List (Option Int)
  | .absent => [none]
  | .scalar v => [some v]
  | .arr vs => vs.map some

/-- The per-request auth metadata bag (`AuthContextMetadata.getMetadata()`). -/
def AuthMetadata : Type := String → MetaVal

/-- One permission definition: metadata key plus optional applicability
predicate (a missing predicate always applies). -/
structure PermissionDefinition where
  key : String
  shouldApply : Option (AuthMetadata → Bool) := none

/-- One restriction pushed by `generateCondition`: column (or literal
expression) `IN` the metadata values. -/
inductive PermRestriction where
  | colIn (column : String) (values : List (Option Int))
  | litIn (expr : String) (values : List (Option Int))
  deriving Repr, DecidableEq

/-- The `FindOptions` returned by `PermissionsManager.generateCondition`:
`where: { [Op.and]: restrictions }` when any restriction is stored, and
`include: includes` when any include is stored (includes are opaque
`Includeable`s here, set only by subclasses). -/
structure PermCondition where
  whereClause : Option (List PermRestriction)
  includeList : Option (List String)
  deriving Repr, DecidableEq

/-- The per-instance accumulator fields of `PermissionsManager`:
`protected restrictions: WhereOptions[] = []` and
`protected includes: Includeable[] = []`. -/
structure PermissionsManagerState where
  restrictions : List PermRestriction := []
  includes : List String := []
  deriving Repr, DecidableEq

/-- A `PermissionsManager` configuration: the association-builder base state
(whose `associationError` is `INVALID_PERMISSION_DEFINITION`) plus the
permission definitions. -/
structure PermissionsManagerCfg where
  builder : AssociationBuilderCfg
  definitions : List PermissionDefinition

/-- `PermissionsManager.serializeKey`: append `.<target primary key>` when
the key has no custom path, is not a raw attribute, and is an association of
the model. -/
def serializeKey (cfg : PermissionsManagerCfg) (key : String) : String :=
  let hasCustomPath := (cfg.builder.pathMap.lookup key).isSome
  let isAttribute := (cfg.builder.rootModel.rawAttr key).isSome
  let isAssociation := (cfg.builder.rootModel.assoc key).isSome
  if hasCustomPath || isAttribute || !isAssociation then
    key
  else
    match cfg.builder.rootModel.assoc key with
    | some a => key ++ "." ++ (cfg.builder.registry a.target).primaryKeyAttribute
    | none => key

/-- Whether a definition applies to the current state:
`!definition.shouldApply || definition.shouldApply(state)`. -/
def definitionApplies (state : AuthMetadata) (d : PermissionDefinition) : Bool :=
  match d.shouldApply with
  | none => true
  | some f => f state

/-- The restriction one matching definition pushes (the loop body of
`generateCondition`): resolve the key to a path, look the path up in
`pathMap` for the column, validate the path, and build
`column IN metadata-values` (a `Sequelize.where` over the literal when the
override is a literal). -/
def definitionRestriction (cfg : PermissionsManagerCfg) (state : AuthMetadata)
    (key : String) : Except JsError PermRestriction :=
  let path := serializeKey cfg key
  let column := (cfg.builder.pathMap.lookup path).getD (.str path)
  match extractAndValidatePathData cfg.builder path with
  | .error e => .error e
  | .ok _ =>
    let value := (state key).toValueArray
    match column with
    | .lit expr => .ok (.litIn expr value)
    | .str c => .ok (.colIn (serializeColumnName c) value)

/-- `PermissionsManager.generateCondition`: filters the applicable
definitions, pushes one restriction per definition onto the instance field
`this.restrictions`, and returns the options built from the whole accumulated
instance state.  The instance state is threaded explicitly; only successful
calls are observed (on a thrown error the JS instance keeps the restrictions
pushed before the throw, which no theorem here relies on).
The `for` loop is factored out as `generateConditionLoop`: it pushes one
restriction per matching definition onto the instance state. -/
def generateConditionLoop (cfg : PermissionsManagerCfg) (state : AuthMetadata)
    (ds : List PermissionDefinition) (st : PermissionsManagerState) :
    Except JsError PermissionsManagerState :=
  ds.foldlM
    (fun (st : PermissionsManagerState) d => do
      let restriction ← definitionRestriction cfg state d.key
      return { st with restrictions := st.restrictions ++ [restriction] })
    st

def generateConditionPM (cfg : PermissionsManagerCfg) (st : PermissionsManagerState)
    (state : AuthMetadata) : Except JsError (PermissionsManagerState × PermCondition) :=
  (generateConditionLoop cfg state (cfg.definitions.filter (definitionApplies state)) st).map
    (fun st =>
      (st,
        { whereClause := if st.restrictions.length != 0 then some st.restrictions else none,
          includeList := if st.includes.length != 0 then some st.includes else none }))

/-! ### Filters generator (`filters-generator.ts`) -/

/-- `VALID_OPERATORS` from `filters-generator.ts`. -/
def VALID_OPERATORS : List String :=
  ["eq", "like", "gt", "gte", "lt", "lte", "ne", "in", "notIn", "is", "not"]

/-- `operatorMap`: the user-facing aliases. -/
def operatorMap : List (String × String) :=
  [("ge", "gte"), ("le", "lte"), ("ct", "like"), ("isNot", "not")]

/-- The serialized value `generateFilter` places under the operator key. -/
inductive SerializedFilterValue where
  | str (s : String)
  | boolean (b : Bool)
  | nullV
  | strList (l : List String)
  deriving Repr, DecidableEq

/-- One `{ column: { [Op.<operator>]: value } }` (or
`Sequelize.where(literal, ...)`) leaf.  The operator is kept as the raw
token: Sequelize's `Op[<invalid token>]` is `undefined`, which silently
yields a malformed key instead of failing, so well-formedness is judged
separately by `WhereC.wellFormed`. -/
structure ColOpFilter where
  column : String
  operator : String
  value : SerializedFilterValue
  deriving Repr, DecidableEq

/-- A predicate produced by `buildFilter`: a column/operator leaf, a literal
expression leaf, or the `Op.or` of column leaves produced by
`generateUpdatedAtFilter`. -/
inductive WhereC where
  | colOp (f : ColOpFilter)
  | litOp (expr : String) (operator : String) (value : SerializedFilterValue)
  | orColOps (conds : List ColOpFilter)
  deriving Repr, DecidableEq

/-- A predicate is well-formed when every operator in it is one of the
`VALID_OPERATORS` (i.e. `Op[operator]` is defined). -/
def WhereC.wellFormed : WhereC → Bool
  | .colOp f => VALID_OPERATORS.contains f.operator
  | .litOp _ operator _ => VALID_OPERATORS.contains operator
  | .orColOps conds => conds.all (fun f => VALID_OPERATORS.contains f.operator)

/-- `value.split(/\s*,\s*/)`: split on commas, consuming the whitespace
adjacent to each comma (the leading whitespace of the first piece and the
trailing whitespace of the last piece are preserved, as with the JS regex). -/
def splitCommaTrim (value : String) : List String :=
  let pieces := splitCharsWhen (fun c => c == ',') value.toList
  match pieces with
  | [] => []
  | [p] => [String.mk p]
  | p :: rest =>
    let n := rest.length
    String.mk (trimRightChars p) ::
      rest.mapIdx (fun i piece =>
        String.mk (if i == n - 1 then trimLeftChars piece else trimChars piece))

/-- `FiltersGenerator.validateFilter`: reject operators outside
`VALID_OPERATORS` with `INVALID_FILTER_OPERATOR`, then reject `is` with a
value other than `null`/`empty` with `INVALID_IS_OPERATOR`. -/
def validateFilter (value : String) (operator : String) : Except JsError Unit :=
  if !(VALID_OPERATORS.contains operator) then
    .error (mkApplicationError INVALID_FILTER_OPERATOR none)
  else if operator == "is" && !(["null", "empty"].contains value) then
    .error (mkApplicationError INVALID_IS_OPERATOR none)
  else
    .ok ()

/-- `FiltersGenerator.generateFilter`: serialize the value according to the
resolved attribute type and operator (boolean parsing, `%...%` wrapping for
`like`, `null`/`""` for `is`/`not` with `is empty` degrading to `eq`, comma
splitting for `in`/`notIn`), then build the leaf, `$`-quoting nested column
names. -/
def generateFilter (column : PathVal) (value : String) (operator : String)
    (fieldType : DataTy := .boolean) : WhereC :=
  let sv0 : SerializedFilterValue := .str value
  let sv1 :=
    if fieldType = DataTy.boolean then
      if value == "true" then .boolean true
      else if value == "false" then .boolean false
      else sv0
    else sv0
  let sv2 := if operator == "like" then .str ("%" ++ value ++ "%") else sv1
  let sv3 :=
    if operator == "is" || operator == "not" then
      if value == "null" then .nullV
      else if value == "empty" then .str ""
      else sv2
    else sv2
  let serializedOperator := if operator == "is" && value == "empty" then "eq" else operator
  let sv4 :=
    if operator == "in" || operator == "notIn" then .strList (splitCommaTrim value) else sv3
  match column with
  | .lit expr => .litOp expr serializedOperator sv4
  | .str c =>
    .colOp { column := serializeColumnName c, operator := serializedOperator, value := sv4 }

/-- The slice of `TimestampsManager` that `buildFilter`'s `updated_at` /
`updated_since` delegation observes: whether any model of the configured
hierarchy (including the root) has timestamps enabled (`hasTimestamps()`),
the `$`-affixed qualified column list computed by
`getUpdatedAtColumns({ affix: "$" })`, and the `moment` ISO-8601 validity
oracle (`isISOFormat`). -/
structure TimestampsManagerCfg where
  hierarchyHasTimestamps : Bool
  updatedAtColumns : List String
  isISO : String → Bool

/-- `_.uniq`: de-duplicate keeping first occurrences. -/
def uniqFirst (l : List String) : List String :=
  l.foldl (fun acc x => if acc.contains x then acc else acc ++ [x]) []

/-- `TimestampsManager.generateUpdatedAtFilter`: requires at least one
timestamped model in the hierarchy, requires an ISO-8601 value, then returns
the `Op.or` of `<qualified column> <operator> <value>` over the de-duplicated
column list.  The operator is used as given (`Op[operator]`): it is never
validated here. -/
def generateUpdatedAtFilter (tm : TimestampsManagerCfg) (value : String)
    (operator : String) : Except JsError WhereC :=
  if !tm.hierarchyHasTimestamps then
    .error (mkApplicationError INVALID_UPDATED_SINCE_FIELD none)
  else if !(tm.isISO value) then
    .error (mkApplicationError INVALID_FORMAT_DATE_TIME none)
  else
    .ok (.orColOps
      ((uniqFirst tm.updatedAtColumns).map
        (fun path => { column := path, operator := operator, value := .str value })))

/-- A `FiltersGenerator` configuration: the association-builder base state
(whose `associationError` is `INVALID_FILTER_PARAMETER`) plus the optional
timestamps manager. -/
structure FiltersGeneratorCfg where
  builder : AssociationBuilderCfg
  timestampsManager : Option TimestampsManagerCfg := none

/-- The path-resolving tail of `FiltersGenerator.buildFilter` (everything
after the `updated_since`/`updated_at` special case): a literal override goes
straight to `generateFilter` with no operator validation; an ordinary
attribute computes the qualified physical column, validates value/operator,
and builds the leaf. -/
def buildFilterResolved (fg : FiltersGeneratorCfg) (queryPath : String)
    (queryOperator : String) (value : String) : Except JsError WhereC :=
  let operator := (operatorMap.lookup queryOperator).getD queryOperator
  match extractAndValidatePathData fg.builder queryPath with
  | .error e => .error e
  | .ok pd =>
    match pd.field with
    | .lit expr => .ok (generateFilter (.lit expr) value operator)
    | .str field =>
      let filterModel := getLastAssociationModel fg.builder pd.associations
      let attr := (filterModel.rawAttr field).getD { field := field }
      let databaseField := attr.field
      let column :=
        ".".intercalate
          ((pd.associations.map (fun a => (a.map (·.asName)).getD "")) ++ [databaseField])
      match validateFilter value operator with
      | .error e => .error e
      | .ok _ => .ok (generateFilter (.str column) value operator attr.type)

/-- The branch structure of `buildFilter` after destructuring: delegate the
special `updated_since` / `updated_at` paths when a timestamps manager is
present, otherwise resolve the path (`buildFilterResolved` holds the rest of
the body). -/
def buildFilterParsed (fg : FiltersGeneratorCfg) (queryPath : String)
    (queryOperator : String) (value : String) : Except JsError WhereC :=
  let operator := (operatorMap.lookup queryOperator).getD queryOperator
  match fg.timestampsManager, ["updated_since", "updated_at"].contains queryPath with
  | some tm, true => generateUpdatedAtFilter tm value operator
  | _, _ => buildFilterResolved fg queryPath queryOperator value

/-- `FiltersGenerator.buildFilter`: split the filter string on whitespace
into path, operator and the space-joined rest, then run the parsed body.
Missing pieces are JS `undefined`; they are modelled as the empty string
(every theorem below supplies all three pieces). -/
def buildFilter (fg : FiltersGeneratorCfg) (filter : String) : Except JsError WhereC :=
  let parts := splitOnWhitespace filter
  let queryPath := (parts.get? 0).getD ""
  let queryOperator := (parts.get? 1).getD ""
  let value := " ".intercalate (parts.drop 2)
  buildFilterParsed fg queryPath queryOperator value

/-! ### Create-permission validation (`permissions-manager.ts` lines 129-201) -/

/-- The restriction leaf of a validation lookup condition. -/
inductive ValidationWhere where
  | fieldIn (field : String) (values : List (Option Int))
  | litIn (expr : String) (values : List (Option Int))
  deriving Repr, DecidableEq

/-- The lookup condition built by `buildValidationCondition`, flattened: the
`reduceRight` either leaves the restriction at top level (no remaining
associations) where it is ANDed with the primary-key clause, or nests it
under a required-include chain (targets outside-in) with the primary-key
clause alone at top level. -/
structure ValidationCondition where
  pkField : String
  pkValue : Int
  topWhere : Option ValidationWhere
  includeChain : List String
  innerWhere : Option ValidationWhere
  deriving Repr, DecidableEq

/-- `PermissionsManager.buildValidationCondition`. -/
def buildValidationCondition (associations : List AssocDesc) (field : PathVal)
    (value : List (Option Int)) (pkField : String) (pkValue : Int) : ValidationCondition :=
  let w : ValidationWhere :=
    match field with
    | .lit e => .litIn e value
    | .str f => .fieldIn f value
  match associations with
  | [] =>
    { pkField := pkField, pkValue := pkValue, topWhere := some w,
      includeChain := [], innerWhere := none }
  | _ =>
    { pkField := pkField, pkValue := pkValue, topWhere := none,
      includeChain := associations.map (·.target), innerWhere := some w }

/-- A nested create payload as far as create-permission validation reads it:
association alias to (attribute name to value). -/
def CreateInput : Type := String → Option (String → Option Int)

/-- JS truthiness of the extracted primary key value: absent (`undefined`)
and `0` are falsy. -/
def truthyValue : Option Int → Bool
  | none => false
  | some v => v != 0

/-- The diagnostic logged when a definition has no direct association. -/
def noDirectAssociationMsg (key : String) : String :=
  "validateCreatePermissions: no direct association was found for the " ++ key ++
    " permission definition."

/-- The diagnostic logged when no id could be extracted from the input. -/
def noIdMsg (key : String) : String :=
  "validateCreatePermissions: no id could be extracted from input for the " ++ key ++
    " permission definition."

/-- The loop of `validateCreatePermissions` over the permission definitions,
threading the diagnostics logged so far.  A definition whose input lacks the
direct association object or its primary key logs a diagnostic and RETURNS
from the whole method (`return`, not `continue`), so the remaining
definitions are never examined.  `lookup` is the storage oracle for
`directAssociation.target.unscoped().findOne(condition)`. -/
def validateCreatePermissionsLoop (cfg : PermissionsManagerCfg)
    (lookup : String → ValidationCondition → Bool) (state : AuthMetadata)
    (input : CreateInput) :
    List PermissionDefinition → List String → Except JsError (List String)
  | [], logs => .ok logs
  | d :: rest, logs =>
    if !(definitionApplies state d) then
      validateCreatePermissionsLoop cfg lookup state input rest logs
    else
      match extractAndValidatePathData cfg.builder (serializeKey cfg d.key) with
      | .error e => .error e
      | .ok pd =>
        match pd.associations.head?.bind id with
        | none => .ok (logs ++ [noDirectAssociationMsg d.key])
        | some directAssociation =>
          let primaryKey := (cfg.builder.registry directAssociation.target).primaryKeyAttribute
          let associationName := directAssociation.asName
          let primaryKeyValue := (input associationName).bind (fun obj => obj primaryKey)
          if !truthyValue primaryKeyValue then
            .ok (logs ++ [noIdMsg d.key])
          else
            let permissionValue := (state d.key).toValueArray
            let condition := buildValidationCondition
              ((pd.associations.drop 1).filterMap id) pd.field permissionValue
              primaryKey (primaryKeyValue.getD 0)
            if lookup directAssociation.target condition then
              validateCreatePermissionsLoop cfg lookup state input rest logs
            else
              .error (mkApplicationError NO_ACCESS none)

/-- `PermissionsManager.validateCreatePermissions`: run the loop from an
empty diagnostics list; `.ok logs` is a non-throwing return with the listed
diagnostics logged to the console. -/
def validateCreatePermissions (cfg : PermissionsManagerCfg)
    (lookup : String → ValidationCondition → Bool) (state : AuthMetadata)
    (input : CreateInput) : Except JsError (List String) :=
  validateCreatePermissionsLoop cfg lookup state input cfg.definitions []

/-! ### Read path and post-write re-fetch (`repository.ts`) -/

/-- A stored row: primary key plus one representative scoping attribute
(for example a marketplace id), the only parts the merged read condition
inspects in the theorems below. -/
structure StoredRow where
  id : Int
  market_place_id : Int
  deriving Repr, DecidableEq

/-- A table keyed by primary key. -/
def Table : Type := Int → Option StoredRow

/-- `SequelizeRepository.getItem`: fetch under the merged
permissions+filters+base condition ANDed with `primaryKey = id`; no match
(absent row or row invisible under the condition, indistinguishably) throws
`ITEM_NOT_FOUND`. -/
def getItemR (condition : StoredRow → Bool) (table : Table) (id : Int) :
    Except JsError StoredRow :=
  match table id with
  | some row =>
    if condition row then .ok row else .error (mkApplicationError ITEM_NOT_FOUND none)
  | none => .error (mkApplicationError ITEM_NOT_FOUND none)

/-- `SequelizeRepository.createItem`: the upsert transaction commits the new
row, then the method re-fetches the created primary key through `getItem`
under the same auth state and returns that result.  The post-commit table is
returned alongside so that durability is observable. -/
def createItemR (condition : StoredRow → Bool) (table : Table) (newRow : StoredRow) :
    Table × Except JsError StoredRow :=
  let committed : Table := fun k => if k == newRow.id then some newRow else table k
  (committed, getItemR condition committed newRow.id)

/-- `SequelizeRepository.updateItem`: the upsert transaction commits the
updated row under the given id, then the method re-fetches it through
`getItem` under the same auth state and returns that result. -/
def updateItemR (condition : StoredRow → Bool) (table : Table) (id : Int)
    (updatedRow : StoredRow) : Table × Except JsError StoredRow :=
  let committed : Table := fun k => if k == id then some updatedRow else table k
  (committed, getItemR condition committed id)

/-! ### `getList` two-phase fetch (`repository.ts` lines 83-134) -/

/-- A JS count value as returned by Sequelize `findAndCountAll`: a scalar
number without a `group` clause, an array (one entry per group) with one. -/
inductive JsCount where
  | num (n : Nat)
  | arr (l : List Nat)
  deriving Repr, DecidableEq

/-- JS `count.length`: defined on arrays, `undefined` on numbers. -/
def JsCount.lengthProp : JsCount → Option Nat
  | .num _ => none
  | .arr l => some l.length

/-- Sequelize `findAndCountAll` over the merged condition: `rows` are the
matching rows after offset/limit (order elided: rows are kept in table
order); `count` is the scalar total of matching rows when no `group` option
is passed, and the per-group array (one entry per distinct primary key under
a group-by-primary-key) when one is. -/
def findAndCountAll (tableRows : List StoredRow) (condition : StoredRow → Bool)
    (limit offset : Nat) (group : Option String) : List StoredRow × JsCount :=
  let matching := tableRows.filter condition
  let rows := (matching.drop offset).take limit
  let count : JsCount :=
    match group with
    | none => .num matching.length
    | some _ => .arr (((matching.map (·.id)).dedup).map (fun _ => 1))
  (rows, count)

/-- `SequelizeRepository.getList` as shipped: phase 1 runs `findAndCountAll`
with the merged condition, order, `limit` and `offset` and NO `group` option
(the group-by-primary-key block is commented out in the source); phase 2
re-fetches rows by `primaryKey IN <phase-1 keys>` under the base fetch
condition with the same order; the returned total is `count.length`, which
assumes the array shape `count` only has under a group clause. -/
def getListR (tableRows : List StoredRow) (condition : StoredRow → Bool)
    (limit offset : Nat) : List StoredRow × Option Nat :=
  let phase1 := findAndCountAll tableRows condition limit offset none
  let keys := phase1.1.map (·.id)
  let items := tableRows.filter (fun r => keys.contains r.id)
  (items, phase1.2.lengthProp)

/-! ### Collection replacement on to-many updates (`repository.ts` 437-471, 581-647) -/

/-- A target-model row of a has-many association: its linking foreign key
column (`none` = SQL NULL) and its `status_id` (read only when the model
declares a status column). -/
structure RelRow where
  fk : Option Int
  status_id : EntityStatus := .REGULAR
  deriving Repr, DecidableEq

/-- The target table of a has-many association, keyed by primary key. -/
def RelDb : Type := Int → Option RelRow

/-- What `removeRelations` inspects on the relation model:
`rawAttributes[foreignKey].allowNull` and the presence of a `status_id`
attribute. -/
structure RelationModelCfg where
  fkNullable : Bool
  hasStatusId : Bool
  deriving Repr, DecidableEq

/-- `SequelizeRepository.removeRelations` for a has-many association: update
`{ foreignKey: null } where foreignKey = sourcePrimaryKey` when the foreign
key is nullable; else update `{ status_id: DELETED }` under the same `where`
when the model has a status column; else destroy the rows. -/
def removeRelationsHasMany (cfg : RelationModelCfg) (sourcePrimaryKey : Int)
    (db : RelDb) : RelDb :=
  if cfg.fkNullable then
    fun k => (db k).map
      (fun r => if r.fk == some sourcePrimaryKey then { r with fk := none } else r)
  else if cfg.hasStatusId then
    fun k => (db k).map
      (fun r =>
        if r.fk == some sourcePrimaryKey then { r with status_id := .DELETED } else r)
  else
    fun k =>
      match db k with
      | some r => if r.fk == some sourcePrimaryKey then none else some r
      | none => none

/-- `upsertEntity` on one has-many list entry that carries the target primary
key `entryId`: the update path — `findByPk`, a 500 `ApplicationError` when
the row is absent, then `entity.update` with the entry attributes merged with
`{ [foreignKey]: sourcePrimaryKey }`.  Attributes absent from the payload —
in particular `status_id` — are left untouched. -/
def upsertHasManyEntry (sourcePrimaryKey : Int) (db : RelDb) (entryId : Int) :
    Except JsError RelDb :=
  match db entryId with
  | none => .error (mkApplicationError UNABLE_TO_FIND_ENTITY_TO_UPDATE none)
  | some r =>
    .ok (fun k =>
      if k == entryId then some { r with fk := some sourcePrimaryKey } else db k)

/-- The has-many branch of `upsertEntity` step 3 for an array-valued
association whose entries carry target primary keys: remove all existing
relations per policy, then upsert each entry with the parent primary key as
foreign key. -/
def replaceHasManyCollection (cfg : RelationModelCfg) (sourcePrimaryKey : Int)
    (entries : List Int) (db : RelDb) : Except JsError RelDb := do
  let cleared := removeRelationsHasMany cfg sourcePrimaryKey db
  entries.foldlM (fun acc e => upsertHasManyEntry sourcePrimaryKey acc e) cleared

/-- Whether target row `k` belongs to the parent's visible has-many
collection: its foreign key points at the parent and, when the model has a
status column, it is not soft-deleted (default scopes such as the one on the
example models restrict fetches by status). -/
def linkedTo (cfg : RelationModelCfg) (sourcePrimaryKey : Int) (db : RelDb)
    (k : Int) : Bool :=
  match db k with
  | some r =>
    r.fk == some sourcePrimaryKey && (!cfg.hasStatusId || r.status_id != .DELETED)
  | none => false

/-- Whether target row `k` still carries the parent's foreign key, status
aside. -/
def fkLinked (sourcePrimaryKey : Int) (db : RelDb) (k : Int) : Bool :=
  match db k with
  | some r => r.fk == some sourcePrimaryKey
  | none => false

/-- A join-table row of a belongs-to-many association: linking foreign key to
the source, the other key to the target, and its `status_id` (read only when
the join model declares one). -/
structure JoinRow where
  fk : Option Int
  otherKey : Int
  status_id : EntityStatus := .REGULAR
  deriving Repr, DecidableEq

/-- `SequelizeRepository.removeRelations` for a belongs-to-many association
(the relation model is the `through` model). -/
def removeRelationsM2M (cfg : RelationModelCfg) (sourcePrimaryKey : Int)
    (rows : List JoinRow) : List JoinRow :=
  if cfg.fkNullable then
    rows.map (fun r => if r.fk == some sourcePrimaryKey then { r with fk := none } else r)
  else if cfg.hasStatusId then
    rows.map
      (fun r =>
        if r.fk == some sourcePrimaryKey then { r with status_id := .DELETED } else r)
  else
    rows.filter (fun r => !(r.fk == some sourcePrimaryKey))

/-- The belongs-to-many branch of `upsertEntity` step 3 for entries carrying
the target primary key: remove existing join rows per policy, then create one
fresh join row per entry linking parent and target. -/
def replaceBelongsToManyCollection (cfg : RelationModelCfg) (sourcePrimaryKey : Int)
    (entries : List Int) (rows : List JoinRow) : List JoinRow :=
  let cleared := removeRelationsM2M cfg sourcePrimaryKey rows
  cleared ++ entries.map (fun t => { fk := some sourcePrimaryKey, otherKey := t })

/-- The targets of the parent's visible belongs-to-many collection. -/
def joinLinkedTargets (cfg : RelationModelCfg) (sourcePrimaryKey : Int)
    (rows : List JoinRow) : List Int :=
  (rows.filter
    (fun r =>
      r.fk == some sourcePrimaryKey && (!cfg.hasStatusId || r.status_id != .DELETED))).map
    (·.otherKey)

/-- Decidable equality for storage results (not derived automatically for
`Except` by this Lean version). -/
instance {ε α : Type} [DecidableEq ε] [DecidableEq α] : DecidableEq (Except ε α) :=
  fun a b =>
    match a, b with
    | .ok x, .ok y =>
      if h : x = y then .isTrue (by rw [h]) else .isFalse (fun hh => h (Except.ok.inj hh))
    | .error x, .error y =>
      if h : x = y then .isTrue (by rw [h]) else .isFalse (fun hh => h (Except.error.inj hh))
    | .ok _, .error _ => .isFalse (fun hh => Except.noConfusion hh)
    | .error _, .ok _ => .isFalse (fun hh => Except.noConfusion hh)

/-! ### Concrete fixtures (example services and unit-test models of the repo) -/

/-- The `MarketPlace` model of the examples, as far as the permissions
manager reads it. -/
def marketPlaceModel : MdlDesc :=
  { name := "MarketPlace", primaryKeyAttribute := "id",
    rawAttributes := [("id", { field := "id" })] }

/-- A registry for the marketplace example (every target resolves to the one
model). -/
def marketPlaceRegistry : String → MdlDesc := fun _ => marketPlaceModel

/-- The `MarketPlacePermissionsManager` of the examples: the default
definition keyed on `market_place`, with `pathMap = (market_place, id)`. -/
def marketPlacePMCfg : PermissionsManagerCfg :=
  { builder :=
      { registry := marketPlaceRegistry, model := "MarketPlace",
        pathMap := [("market_place", .str "id")],
        associationError := INVALID_PERMISSION_DEFINITION },
    definitions := [{ key := "market_place" }] }

/-- Auth metadata carrying `market_place = [17, 20]`. -/
def marketPlaceMeta : AuthMetadata :=
  fun k => if k == "market_place" then .arr [17, 20] else .absent

/-- A filters generator whose `pathMap` maps the input path `computed` to a
literal expression override. -/
def literalFilterCfg : FiltersGeneratorCfg :=
  { builder :=
      { registry := marketPlaceRegistry, model := "MarketPlace",
        pathMap := [("computed", .lit "literal sql expression")],
        associationError := INVALID_FILTER_PARAMETER } }

/-- A filters generator with a timestamps manager whose hierarchy has one
timestamped model; the ISO oracle accepts the one value used below. -/
def timestampedFilterCfg : FiltersGeneratorCfg :=
  { builder :=
      { registry := marketPlaceRegistry, model := "MarketPlace",
        associationError := INVALID_FILTER_PARAMETER },
    timestampsManager := some
      { hierarchyHasTimestamps := true,
        updatedAtColumns := ["$MarketPlace.updated_at$"],
        isISO := fun s => s == "2021-01-01T00:00:00Z" } }

/-- The `SupplyNetwork` model of the unit-test fixtures. -/
def supplyNetworkModel : MdlDesc :=
  { name := "SupplyNetwork", primaryKeyAttribute := "id",
    rawAttributes := [("id", { field := "id" })] }

/-- The `DemandSource` model of the unit-test fixtures. -/
def demandSourceModel : MdlDesc :=
  { name := "DemandSource", primaryKeyAttribute := "id",
    rawAttributes := [("id", { field := "id" })] }

/-- The `Product` model of the unit-test fixtures: belongs to a marketplace
and to a demand source. -/
def productModel : MdlDesc :=
  { name := "Product", primaryKeyAttribute := "id",
    rawAttributes :=
      [("id", { field := "id" }), ("demand_source_id", { field := "demand_source_id" })],
    associations :=
      [("market_place",
        { target := "SupplyNetwork", asName := "market_place",
          foreignKey := "market_place_id", associationType := .BELONGS_TO }),
       ("demand_source",
        { target := "DemandSource", asName := "demand_source",
          foreignKey := "demand_source_id", associationType := .BELONGS_TO })] }

/-- Registry for the product fixtures. -/
def productRegistry : String → MdlDesc := fun n =>
  if n == "SupplyNetwork" then supplyNetworkModel
  else if n == "DemandSource" then demandSourceModel
  else productModel

/-- A permissions manager over `Product` with two always-applicable
definitions, keyed on the two associations. -/
def productPMCfg : PermissionsManagerCfg :=
  { builder :=
      { registry := productRegistry, model := "Product",
        associationError := INVALID_PERMISSION_DEFINITION },
    definitions := [{ key := "market_place" }, { key := "demand_source" }] }

/-- The same manager with only the second definition. -/
def productPMCfgOnlySecond : PermissionsManagerCfg :=
  { productPMCfg with definitions := [{ key := "demand_source" }] }

/-- Auth metadata for the product fixtures. -/
def productMeta : AuthMetadata :=
  fun k =>
    if k == "market_place" then .arr [1]
    else if k == "demand_source" then .scalar 5
    else .absent

/-- A create payload that nests a `market_place` object WITHOUT its primary
key, and a `demand_source` object with id 3. -/
def productInput : CreateInput := fun aliasName =>
  if aliasName == "market_place" then
    some (fun attr => if attr == "name" then some 1 else none)
  else if aliasName == "demand_source" then
    some (fun attr => if attr == "id" then some 3 else none)
  else none

/-- A storage oracle under which every ownership lookup finds no match. -/
def alwaysEmptyLookup : String → ValidationCondition → Bool := fun _ _ => false

/-- Two target rows, both linked to parent 10, statuses live. -/
def cexRelDb : RelDb := fun k =>
  if k == 1 then some { fk := some 10 }
  else if k == 2 then some { fk := some 10 }
  else none

/-! ## Theorems -/

/-- C10: `getList` applies the maximum-page-size check to the signed
`page_size` value but uses its absolute value as the phase-1 limit, so every
negative page size passes validation; `page_size = -500` yields limit 500,
which exceeds the configured maximum of 100; and `page = 0` yields the
negative offset `-limit` rather than an error. -/
theorem pagination_sign_unchecked (ps : Int) (hneg : ps < 0) :
    getAndValidatePageSize (some ps) (some DEFAULT_MAXIMUM_PAGE_SIZE) = .ok ps ∧
    getListPagination { page := some 1, page_size := some (-500) } DEFAULT_MAXIMUM_PAGE_SIZE
      = .ok (500, 0) ∧
    (500 : Int) > DEFAULT_MAXIMUM_PAGE_SIZE ∧
    getListPagination { page := some 0, page_size := some 25 } DEFAULT_MAXIMUM_PAGE_SIZE
      = .ok (25, -25) := by
  refine ⟨?_, by rfl, by decide, by rfl⟩
  unfold getAndValidatePageSize
  simp only [Option.getD_some]
  rw [if_neg (by unfold DEFAULT_MAXIMUM_PAGE_SIZE; omega)]

/-- Witness for C10 at `page_size = -500`. -/
theorem pagination_sign_unchecked_witness :
    (-500 : Int) < 0 ∧
    getAndValidatePageSize (some (-500)) (some DEFAULT_MAXIMUM_PAGE_SIZE) = .ok (-500) :=
  ⟨by decide, (pagination_sign_unchecked (-500) (by decide)).1⟩

/-- C5: every top-level provider operation re-wraps a failure raised inside
its try block into its operation-specific "unable to <verb>" error, except
that an already-classified `ApplicationError` propagates unchanged and is
never double-wrapped; a failure of the permission validation step (which runs
before the try block) propagates as is; a successful body is returned as
is. -/
theorem provider_wraps_unclassified_only {α : Type} (op : ProviderOp)
    (permissionCheck : Except JsError Unit) (body : Except JsError α) :
    (∀ e, permissionCheck = .ok () → body = .error e →
      runProviderOp op permissionCheck body =
        .error (if e.isApplication then e else mkApplicationError (opError op) (some e))) ∧
    (∀ e, e.isApplication = true → mkApplicationError (opError op) (some e) = e) ∧
    (∀ pe, permissionCheck = .error pe → runProviderOp op permissionCheck body = .error pe) ∧
    (∀ v, permissionCheck = .ok () → body = .ok v →
      runProviderOp op permissionCheck body = .ok v) := by
  refine ⟨?_, ?_, ?_, ?_⟩
  · intro e hp hb
    subst hp; subst hb
    cases e with
    | application c er m i => simp [runProviderOp, mkApplicationError, JsError.isApplication]
    | raw m => simp [runProviderOp, mkApplicationError, JsError.isApplication]
  · intro e he
    cases e with
    | application c er m i => rfl
    | raw m => simp [JsError.isApplication] at he
  · intro pe hp
    subst hp; rfl
  · intro v hp hb
    subst hp; subst hb; rfl

/-- Witness for C5: an unclassified connection error inside `createItem` is
wrapped into `UNABLE_TO_CREATE`; a classified `ITEM_NOT_FOUND` passes through
unchanged. -/
theorem provider_wraps_unclassified_only_witness :
    runProviderOp ProviderOp.create (.ok ()) (.error (.raw "connection reset") : Except JsError Unit)
      = .error (.application 400 "Bad Request" "Item could not be created."
          (some "connection reset")) ∧
    runProviderOp ProviderOp.create (.ok ())
        (.error (mkApplicationError ITEM_NOT_FOUND none) : Except JsError Unit)
      = .error (mkApplicationError ITEM_NOT_FOUND none) := by
  constructor
  · have h := (provider_wraps_unclassified_only ProviderOp.create (.ok ())
      (.error (.raw "connection reset") : Except JsError Unit)).1 (.raw "connection reset") rfl rfl
    simpa [mkApplicationError, JsError.isApplication, opError, UNABLE_TO_CREATE] using h
  · have h := (provider_wraps_unclassified_only ProviderOp.create (.ok ())
      (.error (mkApplicationError ITEM_NOT_FOUND none) : Except JsError Unit)).1
      (mkApplicationError ITEM_NOT_FOUND none) rfl rfl
    simpa [mkApplicationError, JsError.isApplication] using h

/-- C6: on an entity with a status attribute, `deleteItem` under the default
configuration sets the status to ARCHIVED and performs no info (audit)
update; with the soft-delete status configured as DELETED it sets the status
to DELETED and, when the entity carries an `info_id`, updates the info row
with the deletion actor; an entity without a status attribute is
hard-deleted. -/
theorem deleteItem_soft_delete_tiering (item : Item) (uid : Option Int)
    (s : EntityStatus) (infoId : Int) :
    (item.status_id = some s →
      (deleteItem .ARCHIVED uid item).returnedItem.status_id = some .ARCHIVED ∧
      (deleteItem .ARCHIVED uid item).destroyed = false ∧
      (deleteItem .ARCHIVED uid item).infoUpsert = none) ∧
    (item.status_id = some s → item.info_id = some infoId →
      (deleteItem .DELETED uid item).returnedItem.status_id = some .DELETED ∧
      (deleteItem .DELETED uid item).infoUpsert =
        some { action := "deleted", by_id := uid, id := some infoId }) ∧
    (item.status_id = none → ∀ cfg, (deleteItem cfg uid item).destroyed = true) := by
  refine ⟨?_, ?_, ?_⟩
  · intro hs
    cases hinfo : item.info_id <;>
      simp [deleteItem, hs, hinfo, upsertInfo]
  · intro hs hinfo
    simp [deleteItem, hs, hinfo, upsertInfo]
  · intro hs cfg
    simp [deleteItem, hs]

/-- Witness for C6 on a concrete soft-deletable audited entity. -/
theorem deleteItem_soft_delete_tiering_witness :
    (deleteItem .ARCHIVED (some 987)
        { id := 123, status_id := some .REGULAR, info_id := some 456 }).infoUpsert = none ∧
    (deleteItem .DELETED (some 987)
        { id := 123, status_id := some .REGULAR, info_id := some 456 }).infoUpsert
      = some { action := "deleted", by_id := some 987, id := some 456 } := by
  have h := deleteItem_soft_delete_tiering
    { id := 123, status_id := some .REGULAR, info_id := some 456 } (some 987) .REGULAR 456
  exact ⟨(h.1 rfl).2.2, (h.2.1 rfl rfl).2⟩

/-- C7 counterexample: `deleteItem` on an entity with status REGULAR returns
the very instance mutated by `item.update`, carrying the soft-delete status
ARCHIVED written during the transaction, not the pre-delete status. -/
theorem deleteItem_returns_post_mutation_cex :
    (deleteItem .ARCHIVED (some 987)
        { id := 123, status_id := some .REGULAR, info_id := some 456 }).returnedItem
      = { id := 123, status_id := some .ARCHIVED, info_id := some 456 } ∧
    (deleteItem .ARCHIVED (some 987)
        { id := 123, status_id := some .REGULAR, info_id := some 456 }).returnedItem.status_id
      ≠ some .REGULAR := by
  constructor
  · rfl
  · decide

/-- C7 (amended): `deleteItem` returns the same instance that the transaction
mutated: for a soft-deletable entity the returned value carries the
configured soft-delete status written during the transaction; only an entity
with no status attribute (which is hard-deleted) is returned with its
pre-delete attribute values. -/
theorem deleteItem_return_value (cfg : EntityStatus) (uid : Option Int) (item : Item) :
    (∀ s, item.status_id = some s →
      (deleteItem cfg uid item).returnedItem = { item with status_id := some cfg }) ∧
    (item.status_id = none →
      (deleteItem cfg uid item).returnedItem = item ∧
      (deleteItem cfg uid item).destroyed = true) := by
  constructor
  · intro s hs
    simp [deleteItem, hs]
  · intro hs
    simp [deleteItem, hs]

/-- Witness for C7's amended theorem on a concrete entity. -/
theorem deleteItem_return_value_witness :
    (deleteItem EntityStatus.DELETED (some 987)
        { id := 123, status_id := some .REGULAR, info_id := some 456 }).returnedItem
      = { id := 123, status_id := some .DELETED, info_id := some 456 } :=
  (deleteItem_return_value EntityStatus.DELETED (some 987)
    { id := 123, status_id := some .REGULAR, info_id := some 456 }).1 .REGULAR rfl

/-- C9: after the write transaction of `createItem` / `updateItem` commits,
the repository re-fetches the entity through `getItem` under the same auth
context; when the persisted row does not satisfy the merged
permission/filter condition, the operation throws `ITEM_NOT_FOUND` even
though the row was durably written. -/
theorem post_write_refetch_item_not_found (condition : StoredRow → Bool)
    (table : Table) (newRow : StoredRow) (id : Int) (updatedRow : StoredRow)
    (hnew : condition newRow = false) (hupd : condition updatedRow = false) :
    ((createItemR condition table newRow).1 newRow.id = some newRow ∧
      (createItemR condition table newRow).2
        = .error (mkApplicationError ITEM_NOT_FOUND none)) ∧
    ((updateItemR condition table id updatedRow).1 id = some updatedRow ∧
      (updateItemR condition table id updatedRow).2
        = .error (mkApplicationError ITEM_NOT_FOUND none)) := by
  constructor
  · constructor
    · simp [createItemR]
    · simp [createItemR, getItemR, hnew]
  · constructor
    · simp [updateItemR]
    · simp [updateItemR, getItemR, hupd]

/-- Witness for C9: a row created outside the caller's marketplace scope is
durably persisted yet reported as not found. -/
theorem post_write_refetch_item_not_found_witness :
    ((createItemR (fun r => r.market_place_id == 17) (fun _ => none)
        { id := 5, market_place_id := 99 }).1 5 = some { id := 5, market_place_id := 99 } ∧
      (createItemR (fun r => r.market_place_id == 17) (fun _ => none)
        { id := 5, market_place_id := 99 }).2
        = .error (mkApplicationError ITEM_NOT_FOUND none)) := by
  have h := post_write_refetch_item_not_found (fun r => r.market_place_id == 17)
    (fun _ => none) { id := 5, market_place_id := 99 } 7 { id := 7, market_place_id := 99 }
    (by decide) (by decide)
  exact h.1

/-- C1 (code bug): the shipped `getList` passes no `group` option to its
phase-1 `findAndCountAll` (the group-by-primary-key block is commented out),
so the Sequelize count is a scalar and the returned total `count.length` is
`undefined` instead of the distinct matching total N; the repository's own
unit tests expect `group: "Product.id"` in the phase-1 options, under which
the count array's length is exactly N. -/
theorem getList_missing_group_totalCount_undefined :
    getListR [{ id := 1, market_place_id := 17 }, { id := 2, market_place_id := 17 }]
        (fun r => r.market_place_id == 17) 25 0
      = ([{ id := 1, market_place_id := 17 }, { id := 2, market_place_id := 17 }], none) ∧
    (findAndCountAll [{ id := 1, market_place_id := 17 }, { id := 2, market_place_id := 17 }]
        (fun r => r.market_place_id == 17) 25 0 (some "Product.id")).2.lengthProp
      = some 2 := by
  constructor
  · rfl
  · rfl

/-- Unfolding of one step of the `generateCondition` loop. -/
theorem generateConditionLoop_cons (cfg : PermissionsManagerCfg) (state : AuthMetadata)
    (d : PermissionDefinition) (ds : List PermissionDefinition)
    (st : PermissionsManagerState) :
    generateConditionLoop cfg state (d :: ds) st =
      match definitionRestriction cfg state d.key with
      | .error e => .error e
      | .ok r =>
        generateConditionLoop cfg state ds { st with restrictions := st.restrictions ++ [r] } := by
  cases h : definitionRestriction cfg state d.key with
  | error e =>
    simp only [generateConditionLoop, List.foldlM, h]
    rfl
  | ok r =>
    simp only [generateConditionLoop, List.foldlM, h]
    rfl

/-- The `generateCondition` loop never touches the `includes` field. -/
theorem generateConditionLoop_includes (cfg : PermissionsManagerCfg) (state : AuthMetadata)
    (ds : List PermissionDefinition) :
    ∀ st st2, generateConditionLoop cfg state ds st = .ok st2 → st2.includes = st.includes := by
  induction ds with
  | nil =>
    intro st st2 h
    simp [generateConditionLoop, List.foldlM, pure, Except.pure] at h
    subst h; rfl
  | cons d ds ih =>
    intro st st2 h
    rw [generateConditionLoop_cons] at h
    cases hr : definitionRestriction cfg state d.key with
    | error e =>
      rw [hr] at h
      dsimp only at h
      exact absurd h (by simp)
    | ok r =>
      rw [hr] at h
      dsimp only at h
      have hh := ih _ _ h
      exact hh

/-- The `generateCondition` loop only appends to the instance `restrictions`
field, and the appended restrictions do not depend on what the field already
holds. -/
theorem generateConditionLoop_append (cfg : PermissionsManagerCfg) (state : AuthMetadata)
    (ds : List PermissionDefinition) :
    ∀ st, generateConditionLoop cfg state ds st =
      (generateConditionLoop cfg state ds { restrictions := [], includes := st.includes }).map
        (fun st2 =>
          { restrictions := st.restrictions ++ st2.restrictions, includes := st2.includes }) := by
  induction ds with
  | nil =>
    intro st
    simp [generateConditionLoop, List.foldlM, pure, Except.pure, Except.map]
  | cons d ds ih =>
    intro st
    rw [generateConditionLoop_cons, generateConditionLoop_cons]
    cases hr : definitionRestriction cfg state d.key with
    | error e => simp [Except.map]
    | ok r =>
      simp only [List.nil_append]
      rw [ih { st with restrictions := st.restrictions ++ [r] },
        ih { restrictions := [r], includes := st.includes }]
      cases hl : generateConditionLoop cfg state ds { restrictions := [], includes := st.includes } with
      | error e => simp [Except.map]
      | ok st2 => simp [Except.map, List.append_assoc]

/-- C3 (amended): `generateCondition` accumulates: each call pushes its
restrictions onto the same instance field and returns the AND of the whole
accumulated list, so a second call with identical auth metadata on the same
fresh instance returns the restriction list twice over; the two conditions
are structurally equal only when no restriction applies at all.  (Each call
on a separately fresh instance does yield the same single restriction per
definition.) -/
theorem generateCondition_accumulates (cfg : PermissionsManagerCfg) (md : AuthMetadata)
    (st1 : PermissionsManagerState) (c1 : PermCondition)
    (h1 : generateConditionPM cfg {} md = .ok (st1, c1)) :
    ∃ st2 c2, generateConditionPM cfg st1 md = .ok (st2, c2) ∧
      st2.restrictions = st1.restrictions ++ st1.restrictions ∧
      (c1 = c2 ↔ st1.restrictions = []) := by
  have hloop :
      generateConditionLoop cfg md (cfg.definitions.filter (definitionApplies md)) {} = .ok st1 ∧
      c1 = { whereClause := if st1.restrictions.length != 0 then some st1.restrictions else none,
             includeList := if st1.includes.length != 0 then some st1.includes else none } := by
    unfold generateConditionPM at h1
    cases hl : generateConditionLoop cfg md (cfg.definitions.filter (definitionApplies md))
        ({} : PermissionsManagerState) with
    | error e => rw [hl] at h1; exact absurd h1 (by simp [Except.map])
    | ok st' =>
      rw [hl] at h1
      simp only [Except.map, Except.ok.injEq, Prod.mk.injEq] at h1
      obtain ⟨hst, hc⟩ := h1
      subst hst
      exact ⟨rfl, hc.symm⟩
  have hinc : st1.includes = [] :=
    generateConditionLoop_includes cfg md _ _ _ hloop.1
  have h2 :
      generateConditionLoop cfg md (cfg.definitions.filter (definitionApplies md)) st1 =
        .ok { restrictions := st1.restrictions ++ st1.restrictions, includes := [] } := by
    rw [generateConditionLoop_append cfg md _ st1, hinc]
    have : ({ restrictions := [], includes := [] } : PermissionsManagerState) = {} := rfl
    rw [this, hloop.1]
    simp [Except.map, hinc]
  refine ⟨{ restrictions := st1.restrictions ++ st1.restrictions, includes := [] },
    { whereClause :=
        if (st1.restrictions ++ st1.restrictions).length != 0
        then some (st1.restrictions ++ st1.restrictions) else none,
      includeList := none }, ?_, rfl, ?_⟩
  · unfold generateConditionPM
    rw [h2]
    simp [Except.map]
  · constructor
    · intro hc
      by_contra hne
      have hlen : st1.restrictions.length ≠ 0 := fun h => hne (List.length_eq_zero.mp h)
      rw [hloop.2] at hc
      have hw := congrArg PermCondition.whereClause hc
      dsimp only at hw
      rw [if_pos (by simp only [bne_iff_ne, ne_eq]; exact hlen),
        if_pos (by simp only [bne_iff_ne, ne_eq, List.length_append]; omega)] at hw
      have hsome := Option.some.inj hw
      have hlen2 := congrArg List.length hsome
      rw [List.length_append] at hlen2
      omega
    · intro hr
      rw [hloop.2, hinc, hr]
      rfl

/-- C3 counterexample: on the marketplace example manager (fresh instance),
two `generateCondition` calls with metadata `market_place = [17, 20]` return
structurally different conditions: the first ANDs one `id IN (17, 20)`
restriction, the second ANDs two copies of it. -/
theorem generateCondition_second_call_differs_cex :
    generateConditionPM marketPlacePMCfg {} marketPlaceMeta
      = .ok ({ restrictions := [.colIn "id" [some 17, some 20]], includes := [] },
             { whereClause := some [.colIn "id" [some 17, some 20]], includeList := none }) ∧
    generateConditionPM marketPlacePMCfg
        { restrictions := [.colIn "id" [some 17, some 20]], includes := [] } marketPlaceMeta
      = .ok ({ restrictions :=
                 [.colIn "id" [some 17, some 20], .colIn "id" [some 17, some 20]],
               includes := [] },
             { whereClause :=
                 some [.colIn "id" [some 17, some 20], .colIn "id" [some 17, some 20]],
               includeList := none }) ∧
    ({ whereClause := some [.colIn "id" [some 17, some 20]], includeList := none } : PermCondition)
      ≠ { whereClause :=
            some [.colIn "id" [some 17, some 20], .colIn "id" [some 17, some 20]],
          includeList := none } := by
  refine ⟨by rfl, by rfl, by decide⟩

/-- Witness for C3's amended theorem at the marketplace example instance. -/
theorem generateCondition_accumulates_witness :
    ∃ st2 c2, generateConditionPM marketPlacePMCfg
        { restrictions := [.colIn "id" [some 17, some 20]], includes := [] } marketPlaceMeta
      = .ok (st2, c2) ∧
      st2.restrictions
        = [PermRestriction.colIn "id" [some 17, some 20]]
            ++ [PermRestriction.colIn "id" [some 17, some 20]] ∧
      (({ whereClause := some [.colIn "id" [some 17, some 20]], includeList := none } :
          PermCondition) = c2 ↔
        [PermRestriction.colIn "id" [some 17, some 20]] = []) :=
  generateCondition_accumulates marketPlacePMCfg marketPlaceMeta
    { restrictions := [.colIn "id" [some 17, some 20]], includes := [] }
    { whereClause := some [.colIn "id" [some 17, some 20]], includeList := none } (by rfl)

/-- When the path is not the special timestamps case, `buildFilter` runs its
path-resolving tail. -/
theorem buildFilterParsed_notSpecial (fg : FiltersGeneratorCfg)
    (queryPath queryOperator value : String)
    (h : fg.timestampsManager = none ∨
      (["updated_since", "updated_at"].contains queryPath) = false) :
    buildFilterParsed fg queryPath queryOperator value
      = buildFilterResolved fg queryPath queryOperator value := by
  unfold buildFilterParsed
  rcases h with h | h
  · rw [h]
  · rw [h]
    cases fg.timestampsManager <;> rfl

/-- `validateFilter` accepts every valid operator (with `is` requiring a
`null`/`empty` value). -/
theorem validateFilter_ok (value operator : String)
    (hop : VALID_OPERATORS.contains operator = true)
    (his : operator = "is" → value = "null" ∨ value = "empty") :
    validateFilter value operator = .ok () := by
  unfold validateFilter
  rw [if_neg (by simpa using hop)]
  by_cases his2 : operator = "is"
  · rcases his his2 with hv | hv <;> subst hv <;> subst his2 <;> rfl
  · have hbe : (operator == "is") = false := by simp [his2]
    rw [if_neg (by simp [hbe])]

/-- `validateFilter` rejects every operator token outside `VALID_OPERATORS`
with `INVALID_FILTER_OPERATOR`. -/
theorem validateFilter_invalid (value operator : String)
    (hop : VALID_OPERATORS.contains operator = false) :
    validateFilter value operator
      = .error (mkApplicationError INVALID_FILTER_OPERATOR none) := by
  unfold validateFilter
  rw [if_pos (by simpa using hop)]

/-- A column leaf built from a valid operator is well-formed (the `is empty`
degradation produces `eq`, also valid). -/
theorem generateFilter_str_wellFormed (column value operator : String) (ty : DataTy)
    (hop : VALID_OPERATORS.contains operator = true) :
    (generateFilter (.str column) value operator ty).wellFormed = true := by
  unfold generateFilter WhereC.wellFormed
  dsimp only
  split
  · decide
  · exact hop

/-- C4 (amended): `buildFilter` validates the operator only when the path
resolves to an ordinary attribute: there every token mapping into the
11-operator set (including the 4 aliases) yields a well-formed predicate —
with `is` additionally requiring a `null`/`empty` value — and any other token
fails with `INVALID_FILTER_OPERATOR`; when the path is override-mapped to a
literal expression, or is the special `updated_at`/`updated_since` name with
a timestamps manager configured, `validateFilter` is never reached: no
operator token raises `INVALID_FILTER_OPERATOR` there (the timestamps branch
can only fail with `INVALID_UPDATED_SINCE_FIELD` or
`INVALID_FORMAT_DATE_TIME`; an invalid token flows into the predicate as an
undefined `Op` key). -/
theorem buildFilter_operator_validation_scope (fg : FiltersGeneratorCfg)
    (queryPath queryOperator value : String) :
    (∀ pd field,
      (fg.timestampsManager = none ∨
        (["updated_since", "updated_at"].contains queryPath) = false) →
      extractAndValidatePathData fg.builder queryPath = .ok pd →
      pd.field = .str field →
      VALID_OPERATORS.contains ((operatorMap.lookup queryOperator).getD queryOperator)
        = true →
      (((operatorMap.lookup queryOperator).getD queryOperator) = "is" →
        value = "null" ∨ value = "empty") →
      ∃ w, buildFilterParsed fg queryPath queryOperator value = .ok w ∧
        w.wellFormed = true) ∧
    (∀ pd field,
      (fg.timestampsManager = none ∨
        (["updated_since", "updated_at"].contains queryPath) = false) →
      extractAndValidatePathData fg.builder queryPath = .ok pd →
      pd.field = .str field →
      VALID_OPERATORS.contains ((operatorMap.lookup queryOperator).getD queryOperator)
        = false →
      buildFilterParsed fg queryPath queryOperator value
        = .error (mkApplicationError INVALID_FILTER_OPERATOR none)) ∧
    (∀ pd expr,
      (fg.timestampsManager = none ∨
        (["updated_since", "updated_at"].contains queryPath) = false) →
      extractAndValidatePathData fg.builder queryPath = .ok pd →
      pd.field = .lit expr →
      buildFilterParsed fg queryPath queryOperator value
        = .ok (generateFilter (.lit expr) value
            ((operatorMap.lookup queryOperator).getD queryOperator))) ∧
    (∀ tm, fg.timestampsManager = some tm →
      (["updated_since", "updated_at"].contains queryPath) = true →
      buildFilterParsed fg queryPath queryOperator value
        = generateUpdatedAtFilter tm value
            ((operatorMap.lookup queryOperator).getD queryOperator) ∧
      ∀ e, generateUpdatedAtFilter tm value
            ((operatorMap.lookup queryOperator).getD queryOperator) = .error e →
        e = mkApplicationError INVALID_UPDATED_SINCE_FIELD none ∨
        e = mkApplicationError INVALID_FORMAT_DATE_TIME none) := by
  refine ⟨?_, ?_, ?_, ?_⟩
  · intro pd field hsp hex hf hop his
    rw [buildFilterParsed_notSpecial fg queryPath queryOperator value hsp]
    unfold buildFilterResolved
    rw [hex]
    dsimp only
    rw [hf]
    dsimp only
    rw [validateFilter_ok value _ hop his]
    exact ⟨_, rfl, generateFilter_str_wellFormed _ value _ _ hop⟩
  · intro pd field hsp hex hf hop
    rw [buildFilterParsed_notSpecial fg queryPath queryOperator value hsp]
    unfold buildFilterResolved
    rw [hex]
    dsimp only
    rw [hf]
    dsimp only
    rw [validateFilter_invalid value _ hop]
  · intro pd expr hsp hex hf
    rw [buildFilterParsed_notSpecial fg queryPath queryOperator value hsp]
    unfold buildFilterResolved
    rw [hex]
    dsimp only
    rw [hf]
  · intro tm htm hcontains
    constructor
    · unfold buildFilterParsed
      rw [htm, hcontains]
    · intro e he
      unfold generateUpdatedAtFilter at he
      by_cases h1 : tm.hierarchyHasTimestamps
      · rw [if_neg (by simp [h1])] at he
        by_cases h2 : tm.isISO value
        · rw [if_neg (by simp [h2])] at he
          exact absurd he (by simp)
        · rw [if_pos (by simp [h2])] at he
          exact Or.inr (Except.error.inj he).symm
      · rw [if_pos (by simp [h1])] at he
        exact Or.inl (Except.error.inj he).symm

/-- C4 counterexample: with an override-mapped literal path, and with the
special `updated_at` path under a timestamps manager, `buildFilter` accepts
the operator token `bogus` — which is not a valid operator — and returns a
predicate instead of failing with `INVALID_FILTER_OPERATOR`. -/
theorem buildFilter_skips_operator_validation_cex :
    buildFilter literalFilterCfg "computed bogus 5"
      = .ok (.litOp "literal sql expression" "bogus" (.str "5")) ∧
    buildFilter timestampedFilterCfg "updated_at bogus 2021-01-01T00:00:00Z"
      = .ok (.orColOps [{ column := "$MarketPlace.updated_at$", operator := "bogus",
                          value := .str "2021-01-01T00:00:00Z" }]) ∧
    VALID_OPERATORS.contains "bogus" = false := by
  refine ⟨by rfl, by rfl, by rfl⟩

/-- Witness for C4 on the ordinary-attribute path `id`: the alias `ge` yields
a well-formed predicate, the unknown token `foo` fails with
`INVALID_FILTER_OPERATOR`. -/
theorem buildFilter_operator_validation_scope_witness :
    (∃ w, buildFilterParsed literalFilterCfg "id" "ge" "5" = .ok w ∧
      w.wellFormed = true) ∧
    buildFilterParsed literalFilterCfg "id" "foo" "5"
      = .error (mkApplicationError INVALID_FILTER_OPERATOR none) := by
  constructor
  · exact (buildFilter_operator_validation_scope literalFilterCfg "id" "ge" "5").1
      { associations := [], field := .str "id" } "id" (Or.inl rfl) (by rfl) rfl (by rfl)
      (fun h => absurd h (by decide))
  · exact (buildFilter_operator_validation_scope literalFilterCfg "id" "foo" "5").2.1
      { associations := [], field := .str "id" } "id" (Or.inl rfl) (by rfl) rfl (by rfl)

/-- C8 (amended): during create-permission validation, an applicable
definition whose input lacks the direct-association object or its primary key
logs one diagnostic and makes the method return immediately — skipping
enforcement of that definition AND of every remaining definition (the result
does not depend on the rest of the list); definitions earlier in the list are
enforced as usual: an applicable enforceable definition whose
existence/ownership lookup finds no match throws `ForbiddenError`, one whose
lookup matches passes on to the next definition, and a non-applicable
definition is skipped with `continue`. -/
theorem validateCreatePermissions_skips_rest (cfg : PermissionsManagerCfg)
    (lookup : String → ValidationCondition → Bool) (state : AuthMetadata)
    (input : CreateInput) :
    (∀ d rest logs pd,
      definitionApplies state d = true →
      extractAndValidatePathData cfg.builder (serializeKey cfg d.key) = .ok pd →
      (pd.associations.head?.bind id = none →
        validateCreatePermissionsLoop cfg lookup state input (d :: rest) logs
          = .ok (logs ++ [noDirectAssociationMsg d.key])) ∧
      (∀ da, pd.associations.head?.bind id = some da →
        truthyValue ((input da.asName).bind
          (fun obj => obj ((cfg.builder.registry da.target).primaryKeyAttribute))) = false →
        validateCreatePermissionsLoop cfg lookup state input (d :: rest) logs
          = .ok (logs ++ [noIdMsg d.key]))) ∧
    (∀ d rest logs pd da,
      definitionApplies state d = true →
      extractAndValidatePathData cfg.builder (serializeKey cfg d.key) = .ok pd →
      pd.associations.head?.bind id = some da →
      truthyValue ((input da.asName).bind
        (fun obj => obj ((cfg.builder.registry da.target).primaryKeyAttribute))) = true →
      (lookup da.target (buildValidationCondition ((pd.associations.drop 1).filterMap id)
          pd.field ((state d.key).toValueArray)
          ((cfg.builder.registry da.target).primaryKeyAttribute)
          (((input da.asName).bind
            (fun obj => obj ((cfg.builder.registry da.target).primaryKeyAttribute))).getD 0))
        = false →
        validateCreatePermissionsLoop cfg lookup state input (d :: rest) logs
          = .error (mkApplicationError NO_ACCESS none)) ∧
      (lookup da.target (buildValidationCondition ((pd.associations.drop 1).filterMap id)
          pd.field ((state d.key).toValueArray)
          ((cfg.builder.registry da.target).primaryKeyAttribute)
          (((input da.asName).bind
            (fun obj => obj ((cfg.builder.registry da.target).primaryKeyAttribute))).getD 0))
        = true →
        validateCreatePermissionsLoop cfg lookup state input (d :: rest) logs
          = validateCreatePermissionsLoop cfg lookup state input rest logs)) ∧
    (∀ d rest logs,
      definitionApplies state d = false →
      validateCreatePermissionsLoop cfg lookup state input (d :: rest) logs
        = validateCreatePermissionsLoop cfg lookup state input rest logs) := by
  refine ⟨?_, ?_, ?_⟩
  · intro d rest logs pd happ hex
    constructor
    · intro hnone
      simp only [validateCreatePermissionsLoop, happ, Bool.not_true, Bool.false_eq_true,
        if_false, hex]
      rw [hnone]
    · intro da hda htruthy
      simp only [validateCreatePermissionsLoop, happ, Bool.not_true, Bool.false_eq_true,
        if_false, hex]
      rw [hda]
      simp only [htruthy, Bool.not_false, if_true]
  · intro d rest logs pd da happ hex hda htruthy
    constructor
    · intro hlook
      simp only [validateCreatePermissionsLoop, happ, Bool.not_true, Bool.false_eq_true,
        if_false, hex]
      rw [hda]
      simp only [htruthy, Bool.not_true, Bool.false_eq_true, if_false, hlook]
    · intro hlook
      simp only [validateCreatePermissionsLoop, happ, Bool.not_true, Bool.false_eq_true,
        if_false, hex]
      rw [hda]
      simp only [htruthy, Bool.not_true, Bool.false_eq_true, if_false, hlook, if_true]
  · intro d rest logs happ
    simp only [validateCreatePermissionsLoop, happ, Bool.not_false, if_true]

/-- C8 counterexample: with two applicable definitions and an input lacking
the first definition's nested primary key, the method logs the diagnostic for
the first definition and returns OK — the second definition is never
enforced, although alone (same input, same empty-lookup storage) it would
throw `ForbiddenError`. -/
theorem validateCreatePermissions_early_return_cex :
    validateCreatePermissions productPMCfg alwaysEmptyLookup productMeta productInput
      = .ok [noIdMsg "market_place"] ∧
    validateCreatePermissions productPMCfgOnlySecond alwaysEmptyLookup productMeta productInput
      = .error (mkApplicationError NO_ACCESS none) := by
  refine ⟨by rfl, by rfl⟩

/-- Witness for C8's amended theorem on the product fixture. -/
theorem validateCreatePermissions_skips_rest_witness :
    validateCreatePermissionsLoop productPMCfg alwaysEmptyLookup productMeta productInput
        [{ key := "market_place" }, { key := "demand_source" }] []
      = .ok ([] ++ [noIdMsg "market_place"]) :=
  ((validateCreatePermissions_skips_rest productPMCfg alwaysEmptyLookup productMeta
      productInput).1
    { key := "market_place" } [{ key := "demand_source" }] []
    { associations :=
        [some { target := "SupplyNetwork", asName := "market_place",
                foreignKey := "market_place_id", associationType := .BELONGS_TO }],
      field := .str "id" }
    rfl (by rfl)).2
    { target := "SupplyNetwork", asName := "market_place",
      foreignKey := "market_place_id", associationType := .BELONGS_TO }
    (by rfl) (by rfl)

/-- The relink fold of the has-many branch: it succeeds when every entry id
has a row, it preserves row existence and statuses, and afterwards a row
carries the parent foreign key exactly when its id is among the entries or it
already carried it. -/
theorem foldUpsert_ok (spk : Int) :
    ∀ (entries : List Int) (db : RelDb),
      (∀ e ∈ entries, (db e).isSome) →
      ∃ db2,
        entries.foldlM (fun acc e => upsertHasManyEntry spk acc e) db = .ok db2 ∧
        (∀ k, (db2 k).isSome = (db k).isSome) ∧
        (∀ k, fkLinked spk db2 k = (entries.contains k || fkLinked spk db k)) ∧
        (∀ k, (db2 k).map (·.status_id) = (db k).map (·.status_id)) := by
  intro entries
  induction entries with
  | nil =>
    intro db _
    exact ⟨db, rfl, fun _ => rfl, fun k => by simp [List.contains], fun _ => rfl⟩
  | cons f rest ih =>
    intro db h
    obtain ⟨r, hr⟩ := Option.isSome_iff_exists.mp (h f (List.mem_cons_self f rest))
    have hstep : upsertHasManyEntry spk db f
        = .ok (fun k => if k == f then some { r with fk := some spk } else db k) := by
      unfold upsertHasManyEntry; rw [hr]
    have h1 : ∀ e ∈ rest,
        ((fun k => if k == f then some { r with fk := some spk } else db k) e).isSome := by
      intro e he
      by_cases hef : (e == f) = true
      · simp [hef]
      · simp only [hef, Bool.false_eq_true, if_false]
        exact h e (List.mem_cons_of_mem f he)
    obtain ⟨db2, hfold, hsome, hlink, hstatus⟩ :=
      ih (fun k => if k == f then some { r with fk := some spk } else db k) h1
    refine ⟨db2, ?_, ?_, ?_, ?_⟩
    · simp only [List.foldlM, hstep]
      simpa using hfold
    · intro k
      rw [hsome k]
      by_cases hk : (k == f) = true
      · have : k = f := by simpa using hk
        subst this
        simp [hk, hr]
      · simp [hk]
    · intro k
      rw [hlink k]
      by_cases hk : (k == f) = true
      · have hkf : k = f := by simpa using hk
        subst hkf
        have hl1 : fkLinked spk
            (fun j => if j == k then some { r with fk := some spk } else db j) k = true := by
          unfold fkLinked
          simp
        rw [hl1]
        simp [List.contains, List.elem, hk]
      · have hl1 : fkLinked spk
            (fun j => if j == f then some { r with fk := some spk } else db j) k
            = fkLinked spk db k := by
          unfold fkLinked
          simp [hk]
        rw [hl1]
        simp [List.contains, List.elem, hk]
    · intro k
      rw [hstatus k]
      by_cases hk : (k == f) = true
      · have : k = f := by simpa using hk
        subst this
        simp [hk, hr]
      · simp [hk]

/-- The relink fold fails with the upsert 500 error as soon as some entry id
has no row. -/
theorem foldUpsert_missing (spk : Int) :
    ∀ (entries : List Int) (db : RelDb) (e : Int), e ∈ entries → db e = none →
      entries.foldlM (fun acc x => upsertHasManyEntry spk acc x) db
        = .error (mkApplicationError UNABLE_TO_FIND_ENTITY_TO_UPDATE none) := by
  intro entries
  induction entries with
  | nil => intro db e he _; exact absurd he (List.not_mem_nil e)
  | cons f rest ih =>
    intro db e he hnone
    rcases List.mem_cons.mp he with he1 | he2
    · subst he1
      simp only [List.foldlM, upsertHasManyEntry, hnone]
      rfl
    · cases hdf : db f with
      | none =>
        simp only [List.foldlM, upsertHasManyEntry, hdf]
        rfl
      | some r =>
        have hef : (e == f) = false := by
          by_cases hef : e = f
          · rw [hef, hdf] at hnone; cases hnone
          · simpa using hef
        have hstep : upsertHasManyEntry spk db f
            = .ok (fun k => if k == f then some { r with fk := some spk } else db k) := by
          unfold upsertHasManyEntry; rw [hdf]
        have hnone1 :
            (fun k => if k == f then some { r with fk := some spk } else db k) e = none := by
          simp only [hef, Bool.false_eq_true, if_false]
          exact hnone
        have hrec := ih (fun k => if k == f then some { r with fk := some spk } else db k)
          e he2 hnone1
        simp only [List.foldlM, hstep]
        simpa using hrec

/-- After `removeRelations` (has-many, nullable foreign key) no row carries
the parent foreign key. -/
theorem removeRelationsHasMany_nullable_unlinks (hs : Bool) (spk : Int) (db : RelDb) (k : Int) :
    fkLinked spk (removeRelationsHasMany ⟨true, hs⟩ spk db) k = false := by
  have hpt : removeRelationsHasMany ⟨true, hs⟩ spk db k
      = (db k).map
          (fun r => if r.fk == some spk then { r with fk := none } else r) := rfl
  unfold fkLinked
  rw [hpt]
  cases hdb : db k with
  | none => rfl
  | some r =>
    by_cases hl : (r.fk == some spk) = true
    · rw [show Option.map
          (fun r => if r.fk == some spk then { r with fk := none } else r) (some r)
          = some (if r.fk == some spk then { r with fk := none } else r) from rfl,
        if_pos hl]
      rfl
    · rw [show Option.map
          (fun r => if r.fk == some spk then { r with fk := none } else r) (some r)
          = some (if r.fk == some spk then { r with fk := none } else r) from rfl,
        if_neg hl]
      simpa using hl

/-- After `removeRelations` (has-many, non-nullable foreign key, status
column) every previously linked row keeps its foreign key but is marked
DELETED. -/
theorem removeRelationsHasMany_status_marks (spk : Int) (db : RelDb) (k : Int) (r : RelRow)
    (hdb : db k = some r) (hl : (r.fk == some spk) = true) :
    removeRelationsHasMany ⟨false, true⟩ spk db k = some { r with status_id := .DELETED } := by
  have hpt : removeRelationsHasMany ⟨false, true⟩ spk db k
      = (db k).map
          (fun r => if r.fk == some spk then { r with status_id := .DELETED } else r) := rfl
  rw [hpt, hdb]
  rw [show Option.map
      (fun r => if r.fk == some spk then { r with status_id := EntityStatus.DELETED } else r)
      (some r)
      = some (if r.fk == some spk then { r with status_id := EntityStatus.DELETED } else r)
      from rfl,
    if_pos hl]

/-- After `removeRelations` (has-many, non-nullable foreign key, no status
column) every previously linked row is destroyed. -/
theorem removeRelationsHasMany_destroy_removes (spk : Int) (db : RelDb) (k : Int)
    (hl : fkLinked spk db k = true) :
    removeRelationsHasMany ⟨false, false⟩ spk db k = none := by
  have hpt : removeRelationsHasMany ⟨false, false⟩ spk db k
      = (match db k with
         | some r => if r.fk == some spk then none else some r
         | none => none) := rfl
  rw [hpt]
  unfold fkLinked at hl
  cases hdb : db k with
  | none => rfl
  | some r =>
    rw [hdb] at hl
    dsimp only at hl
    dsimp only
    rw [if_pos hl]

/-- After `removeRelationsM2M` no join row is visibly linked to the parent,
whatever the removal policy branch. -/
theorem removeRelationsM2M_filter_nil (cfg : RelationModelCfg) (spk : Int)
    (rows : List JoinRow) :
    (removeRelationsM2M cfg spk rows).filter
      (fun r => r.fk == some spk && (!cfg.hasStatusId || r.status_id != .DELETED)) = [] := by
  unfold removeRelationsM2M
  by_cases h1 : cfg.fkNullable
  · rw [if_pos h1]
    induction rows with
    | nil => rfl
    | cons r rows ih =>
      simp only [List.map_cons, List.filter_cons]
      by_cases h2 : (r.fk == some spk) = true
      · simpa [h2] using ih
      · simpa [h2] using ih
  · rw [if_neg h1]
    by_cases h3 : cfg.hasStatusId
    · rw [if_pos h3]
      induction rows with
      | nil => rfl
      | cons r rows ih =>
        simp only [List.map_cons, List.filter_cons]
        by_cases h2 : (r.fk == some spk) = true
        · simpa [h2, h3] using ih
        · simpa [h2] using ih
    · rw [if_neg h3]
      induction rows with
      | nil => rfl
      | cons r rows ih =>
        simp only [List.filter_cons]
        by_cases h2 : (r.fk == some spk) = true
        · simpa [h2] using ih
        · simpa [h2] using ih

/-- C2 (amended): on an update of a to-many association whose input value is
a list of existing entries (ids), previous linkage is first removed per the
policy and the entries are then re-linked — but the resulting collection
equals the input list only in some branches: (1) for a has-many association
with a nullable foreign key the rows carrying the parent key afterwards are
exactly the listed ids; (2) for a has-many association removed via the
status policy, every previously linked row — including re-sent entries,
whose status the relink update does not restore — ends with status DELETED
and thus outside the visible collection; (3) for a has-many association
removed via hard delete, re-sending a previously linked id makes the whole
upsert fail with the 500 "unable to find entity to update" error (aborting
the transaction); (4) for a belongs-to-many association the visible join
collection equals the input list under every policy branch. -/
theorem collection_replacement_by_branch :
    (∀ (hs : Bool) (db : RelDb) (spk : Int) (entries : List Int),
      (∀ e ∈ entries, (db e).isSome) →
      ∃ db2, replaceHasManyCollection ⟨true, hs⟩ spk entries db = .ok db2 ∧
        ∀ k, fkLinked spk db2 k = entries.contains k) ∧
    (∀ (db : RelDb) (spk : Int) (entries : List Int),
      (∀ e ∈ entries, (db e).isSome) →
      ∃ db2, replaceHasManyCollection ⟨false, true⟩ spk entries db = .ok db2 ∧
        ∀ k, fkLinked spk db k = true →
          (db2 k).map (·.status_id) = some EntityStatus.DELETED ∧
          linkedTo ⟨false, true⟩ spk db2 k = false) ∧
    (∀ (db : RelDb) (spk : Int) (entries : List Int) (e : Int),
      e ∈ entries → fkLinked spk db e = true →
      replaceHasManyCollection ⟨false, false⟩ spk entries db
        = .error (mkApplicationError UNABLE_TO_FIND_ENTITY_TO_UPDATE none)) ∧
    (∀ (cfg : RelationModelCfg) (spk : Int) (entries : List Int) (rows : List JoinRow),
      joinLinkedTargets cfg spk (replaceBelongsToManyCollection cfg spk entries rows)
        = entries) := by
  refine ⟨?_, ?_, ?_, ?_⟩
  · intro hs db spk entries h
    have h1 : ∀ e ∈ entries, ((removeRelationsHasMany ⟨true, hs⟩ spk db) e).isSome := by
      intro e he
      have hsome := h e he
      have hpt : removeRelationsHasMany ⟨true, hs⟩ spk db e
          = (db e).map
              (fun r => if r.fk == some spk then { r with fk := none } else r) := rfl
      rw [hpt]
      cases hdb : db e with
      | none => rw [hdb] at hsome; simp at hsome
      | some r => rfl
    obtain ⟨db2, hfold, _, hlink, _⟩ := foldUpsert_ok spk entries _ h1
    refine ⟨db2, ?_, ?_⟩
    · unfold replaceHasManyCollection
      exact hfold
    · intro k
      rw [hlink k, removeRelationsHasMany_nullable_unlinks hs spk db k]
      simp
  · intro db spk entries h
    have h1 : ∀ e ∈ entries, ((removeRelationsHasMany ⟨false, true⟩ spk db) e).isSome := by
      intro e he
      have hsome := h e he
      have hpt : removeRelationsHasMany ⟨false, true⟩ spk db e
          = (db e).map
              (fun r => if r.fk == some spk then { r with status_id := .DELETED } else r) := rfl
      rw [hpt]
      cases hdb : db e with
      | none => rw [hdb] at hsome; simp at hsome
      | some r => rfl
    obtain ⟨db2, hfold, hsome, _, hstatus⟩ := foldUpsert_ok spk entries _ h1
    refine ⟨db2, ?_, ?_⟩
    · unfold replaceHasManyCollection
      exact hfold
    · intro k hl
      unfold fkLinked at hl
      cases hdb : db k with
      | none => rw [hdb] at hl; cases hl
      | some r =>
        rw [hdb] at hl
        have hmark := removeRelationsHasMany_status_marks spk db k r hdb hl
        have hst : (db2 k).map (·.status_id) = some EntityStatus.DELETED := by
          rw [hstatus k, hmark]
          rfl
        refine ⟨hst, ?_⟩
        unfold linkedTo
        cases hdb2 : db2 k with
        | none => rfl
        | some r2 =>
          rw [hdb2] at hst
          rw [show Option.map (fun x => x.status_id) (some r2) = some r2.status_id from rfl]
            at hst
          have hr2 : r2.status_id = EntityStatus.DELETED := Option.some.inj hst
          simp [hr2]
  · intro db spk entries e he hl
    unfold replaceHasManyCollection
    exact foldUpsert_missing spk entries _ e he
      (removeRelationsHasMany_destroy_removes spk db e hl)
  · intro cfg spk entries rows
    unfold replaceBelongsToManyCollection joinLinkedTargets
    rw [List.filter_append, List.map_append, removeRelationsM2M_filter_nil]
    have hkeep :
        (entries.map (fun t => ({ fk := some spk, otherKey := t } : JoinRow))).filter
          (fun r => r.fk == some spk && (!cfg.hasStatusId || r.status_id != .DELETED))
        = entries.map (fun t => ({ fk := some spk, otherKey := t } : JoinRow)) := by
      rw [List.filter_eq_self]
      intro r hrm
      obtain ⟨t, _, hteq⟩ := List.mem_map.mp hrm
      subst hteq
      by_cases h3 : cfg.hasStatusId
      · simp [h3]
      · simp [h3]
    rw [hkeep, List.map_map]
    rw [show ((fun x : JoinRow => x.otherKey) ∘ fun t =>
        ({ fk := some spk, otherKey := t } : JoinRow)) = fun t => t from rfl]
    simp

/-- C2 counterexample: parent 10 with linked target rows 1 and 2; updating
the collection to the single entry 2.  Under the status removal policy the
result is not the input list: entry 2 ends soft-deleted (not visibly
linked), and entry 1 still carries the parent foreign key; under the
hard-delete policy the update fails outright. -/
theorem replace_collection_cex :
    ((replaceHasManyCollection ⟨false, true⟩ 10 [2] cexRelDb).map (fun db2 =>
        (linkedTo ⟨false, true⟩ 10 db2 2, fkLinked 10 db2 1, db2 1, db2 2)))
      = .ok (false, true, some { fk := some 10, status_id := .DELETED },
             some { fk := some 10, status_id := .DELETED }) ∧
    replaceHasManyCollection ⟨false, false⟩ 10 [2] cexRelDb
      = .error (mkApplicationError UNABLE_TO_FIND_ENTITY_TO_UPDATE none) := by
  constructor
  · rfl
  · rfl

/-- Witness for C2's amended theorem: the nullable branch at the concrete
two-row table, and the belongs-to-many branch at a concrete join table. -/
theorem collection_replacement_by_branch_witness :
    (∃ db2, replaceHasManyCollection ⟨true, true⟩ 10 [2] cexRelDb = .ok db2 ∧
      ∀ k, fkLinked 10 db2 k = [2].contains k) ∧
    joinLinkedTargets ⟨false, false⟩ 10
        (replaceBelongsToManyCollection ⟨false, false⟩ 10 [4, 5]
          [{ fk := some 10, otherKey := 3 }])
      = [4, 5] :=
  ⟨collection_replacement_by_branch.1 true cexRelDb 10 [2] (by decide),
   collection_replacement_by_branch.2.2.2 ⟨false, false⟩ 10 [4, 5]
     [{ fk := some 10, otherKey := 3 }]⟩

end NodeServiceGenerator
